import Mathlib

/-!
Verification development for the financial-pdf-parser repository.

The backend is a TypeScript/tRPC CRUD service over two PostgreSQL tables
(documents and transactions, see src/server/src/db/schema.ts).  This file
gives a shallow embedding of the database state and of the request handlers,
and proves the behavioural claims about them.

Modelling conventions:
* The database is a pair of row lists plus the serial counters and the
  current clock (used for column defaults `defaultNow()`).
* Timestamps (`timestamp` columns, JS `Date` values) are integers
  (epoch milliseconds).
* Monetary amounts (`numeric(12,2)` column, JS numbers that the handlers
  serialise with `toString` and read back with `parseFloat`) are integers
  in cents: -15075 stands for -150.75, 250000 for 2500.00.
* A thrown JS `Error` is an `Except.error` carrying the message string.
* SQL `UPDATE ... WHERE id = x` is a map over the row list touching the
  rows whose id matches; `ORDER BY` is `List.insertionSort` (SQL fixes
  only the ordering, not the algorithm).
-/

/-- `processing_status` enum of the documents table. -/
inductive ProcessingStatus
| pending
| processing
| completed
| failed
deriving DecidableEq

/-- `transaction_type` enum of the transactions table. -/
inductive TransactionType
| debit
| credit
| transfer
| fee
| other
deriving DecidableEq

/-- A row of the documents table. -/
structure DocumentRow where
  id : Nat
  filename : String
  original_name : String
  file_size : Nat
  mime_type : String
  upload_date : Int
  processing_status : ProcessingStatus
  error_message : Option String
deriving DecidableEq

/-- A row of the transactions table.  `amount` is in cents. -/
structure TransactionRow where
  id : Nat
  document_id : Nat
  transaction_date : Int
  amount : Int
  description : String
  account_number : Option String
  vendor_name : Option String
  transaction_type : Option TransactionType
  created_at : Int
deriving DecidableEq

/-- The database state: both tables, the serial id counters, and the clock
used for `defaultNow()` columns. -/
structure DB where
  documents : List DocumentRow
  transactions : List TransactionRow
  nextDocId : Nat
  nextTxId : Nat
  now : Int
deriving DecidableEq

/-- Does the pattern match a leading segment of the string (as char lists)?
Used to define substring containment. -/
def startsWithL : List Char → List Char → Bool
| [], _ => true
| _ :: _, [] => false
| c :: cs, d :: ds => (c == d) && startsWithL cs ds

/-- Does the string (second argument) contain the pattern (first argument)
as a contiguous run?  Mirrors JS `String.prototype.includes`. -/
def containsSubL (pat : List Char) : List Char → Bool
| [] => startsWithL pat []
| c :: cs => startsWithL pat (c :: cs) || containsSubL pat cs

/-- JS `s.includes(pat)`. -/
def strContainsSub (s pat : String) : Bool :=
  containsSubL pat.data s.data

/-- SQL LIKE pattern matching, compared case-insensitively (ILIKE):
`%` matches any run of characters, `_` matches one character, a backslash
escapes the next pattern character.  (A pattern ending in a lone backslash
is a PostgreSQL error; here it matches a literal backslash.) -/
def likeMatch : List Char → List Char → Bool
| [], s => s.isEmpty
| '%' :: ps, s => s.tails.any (fun s2 => likeMatch ps s2)
| '_' :: ps, s =>
    (match s with
     | [] => false
     | _ :: cs => likeMatch ps cs)
| '\\' :: c :: ps, s =>
    (match s with
     | [] => false
     | d :: cs => (d.toLower == c.toLower) && likeMatch ps cs)
| c :: ps, s =>
    (match s with
     | [] => false
     | d :: cs => (d.toLower == c.toLower) && likeMatch ps cs)

/-- drizzle `ilike(column, ++ term ++)` with `%` appended on both sides,
as built in `searchTransactions`. -/
def ilikeContains (term s : String) : Bool :=
  likeMatch ('%' :: (term.data ++ ['%'])) s.data

/-- `SELECT * FROM documents WHERE id = documentId` followed by taking
the first row, i.e. `documents[0]` after the length check. -/
def findDocument (db : DB) (id : Nat) : Option DocumentRow :=
  db.documents.find? (fun d => d.id == id)

/-- `SELECT * FROM transactions WHERE id = txId`, first row. -/
def findTransaction (db : DB) (id : Nat) : Option TransactionRow :=
  db.transactions.find? (fun t => t.id == id)

/-- `UPDATE documents SET ... WHERE id = id`: applies the row update to
every row whose id matches. -/
def updateDocWhere (db : DB) (id : Nat) (f : DocumentRow → DocumentRow) : DB :=
  { db with documents := db.documents.map (fun d => if d.id == id then f d else d) }

/-- The status/error update statement issued repeatedly by `processDocument`:
`UPDATE documents SET processing_status = st, error_message = err WHERE id = id`. -/
def setDocStatus (db : DB) (id : Nat) (st : ProcessingStatus) (err : Option String) : DB :=
  updateDocWhere db id (fun d => { d with processing_status := st, error_message := err })

/-- The shape returned by the extraction step of `processDocument`
(`ExtractedTransactionData` in process_document.ts). -/
structure ExtractedTransactionData where
  transaction_date : Int
  amount : Int
  description : String
  account_number : Option String
  vendor_name : Option String
  transaction_type : Option TransactionType
deriving DecidableEq

/-- Epoch milliseconds of `new Date(string-for-2024-01-15)`. -/
def date_2024_01_15 : Int := 1705276800000

/-- Epoch milliseconds of `new Date(string-for-2024-01-16)`. -/
def date_2024_01_16 : Int := 1705363200000

/-- The two hardcoded mock transactions of `extractTransactionsFromDocument`.
Amounts in cents: -15075 is -150.75 and 250000 is 2500.00. -/
def mockTransactions : List ExtractedTransactionData :=
  [ { transaction_date := date_2024_01_15
      amount := -15075
      description := "ATM Withdrawal"
      account_number := some "****1234"
      vendor_name := some "Chase ATM"
      transaction_type := some TransactionType.debit },
    { transaction_date := date_2024_01_16
      amount := 250000
      description := "Direct Deposit Salary"
      account_number := some "****1234"
      vendor_name := some "ACME Corp"
      transaction_type := some TransactionType.credit } ]

/-- `extractTransactionsFromDocument` (process_document.ts): keyed off
filename substrings, checking "empty" first, then "error", else the two
mock transactions. -/
def extractTransactionsFromDocument (document : DocumentRow) :
    Except String (List ExtractedTransactionData) :=
  if strContainsSub document.filename "empty" then
    Except.ok []
  else if strContainsSub document.filename "error" then
    Except.error "PDF parsing failed - corrupted file"
  else
    Except.ok mockTransactions

/-- One `INSERT INTO transactions ... RETURNING *`: the new row takes the
serial id and the `defaultNow()` creation time. -/
def insertTransactionRow (db : DB) (document_id : Nat) (t : ExtractedTransactionData) :
    TransactionRow × DB :=
  let row : TransactionRow :=
    { id := db.nextTxId
      document_id := document_id
      transaction_date := t.transaction_date
      amount := t.amount
      description := t.description
      account_number := t.account_number
      vendor_name := t.vendor_name
      transaction_type := t.transaction_type
      created_at := db.now }
  (row, { db with transactions := db.transactions ++ [row], nextTxId := db.nextTxId + 1 })

/-- The insert loop (step 4) of `processDocument`: saves every extracted
transaction in order, collecting the returned rows. -/
def insertTransactions (db : DB) (document_id : Nat) :
    List ExtractedTransactionData → List TransactionRow × DB
| [] => ([], db)
| t :: ts =>
    let p := insertTransactionRow db document_id t
    let rest := insertTransactions p.2 document_id ts
    (p.1 :: rest.1, rest.2)

/-- Outcome of a `processDocument` run: the returned value or thrown error,
the final database, and the sequence of `(processing_status, error_message)`
pairs written to the document row by the UPDATE statements, in order. -/
structure ProcResult where
  result : Except String (List TransactionRow)
  db : DB
  writes : List (ProcessingStatus × Option String)

/-- `processDocument` (process_document.ts): look the document up (throwing
if absent), set its status to processing, run the extraction step, insert
the extracted rows, set the status to completed; the surrounding catch sets
the status to failed with the thrown message and rethrows.  (The not-found
throw happens before the processing update, so the failed update is the
only one in that run; it matches no row.) -/
def processDocument (db : DB) (documentId : Nat) : ProcResult :=
  match findDocument db documentId with
  | none =>
      let msg := "Document with ID " ++ toString documentId ++ " not found"
      { result := Except.error msg
        db := setDocStatus db documentId ProcessingStatus.failed (some msg)
        writes := [(ProcessingStatus.failed, some msg)] }
  | some document =>
      let db1 := setDocStatus db documentId ProcessingStatus.processing none
      match extractTransactionsFromDocument document with
      | Except.error msg =>
          { result := Except.error msg
            db := setDocStatus db1 documentId ProcessingStatus.failed (some msg)
            writes := [(ProcessingStatus.processing, none),
                       (ProcessingStatus.failed, some msg)] }
      | Except.ok extracted =>
          let saved := insertTransactions db1 documentId extracted
          { result := Except.ok saved.1
            db := setDocStatus saved.2 documentId ProcessingStatus.completed none
            writes := [(ProcessingStatus.processing, none),
                       (ProcessingStatus.completed, none)] }

/-- Input of `updateDocumentStatus` (zod `updateDocumentStatusInputSchema`):
`error_message` is optional and nullable, so `none` means the field was not
provided (`undefined`) and `some em` means it was provided with value `em`. -/
structure UpdateDocumentStatusInput where
  id : Nat
  processing_status : ProcessingStatus
  error_message : Option (Option String)
deriving DecidableEq

/-- The per-row effect of the UPDATE built by `updateDocumentStatus`:
always sets the status; for a failed status the error message is written
only when provided, otherwise it is cleared to null. -/
def updateDocumentStatusRow (input : UpdateDocumentStatusInput) (d : DocumentRow) : DocumentRow :=
  let d1 := { d with processing_status := input.processing_status }
  if input.processing_status = ProcessingStatus.failed then
    match input.error_message with
    | some em => { d1 with error_message := em }
    | none => d1
  else
    { d1 with error_message := none }

/-- `updateDocumentStatus` (process_document.ts): UPDATE ... RETURNING,
throwing when no row matched (in which case the state is unchanged).
Returns the thrown-or-returned value together with the resulting state. -/
def updateDocumentStatus (db : DB) (input : UpdateDocumentStatusInput) :
    Except String DocumentRow × DB :=
  match findDocument db input.id with
  | none =>
      (Except.error ("Document with id " ++ toString input.id ++ " not found"), db)
  | some d =>
      (Except.ok (updateDocumentStatusRow input d),
        updateDocWhere db input.id (updateDocumentStatusRow input))

/-- Input of `uploadDocument` (zod `uploadDocumentInputSchema`).  Validity
(positive `file_size`, `mime_type` equal to application/pdf) is enforced by
zod before the handler runs. -/
structure UploadDocumentInput where
  filename : String
  original_name : String
  file_size : Nat
  mime_type : String
deriving DecidableEq

/-- `uploadDocument` (upload_document.ts).  `Date.now()` and the random
suffix produced from `Math.random()` are passed in as parameters
`timestamp` and `randomSuffix`; the insert takes the serial id, the
`defaultNow()` upload date, and the pending status. -/
def uploadDocument (db : DB) (input : UploadDocumentInput)
    (timestamp : Int) (randomSuffix : String) : DocumentRow × DB :=
  let generatedFilename := "doc_" ++ toString timestamp ++ "_" ++ randomSuffix ++ ".pdf"
  let row : DocumentRow :=
    { id := db.nextDocId
      filename := generatedFilename
      original_name := input.original_name
      file_size := input.file_size
      mime_type := input.mime_type
      upload_date := db.now
      processing_status := ProcessingStatus.pending
      error_message := none }
  (row, { db with documents := db.documents ++ [row], nextDocId := db.nextDocId + 1 })

/-- Input of `createTransaction` (zod `createTransactionInputSchema`). -/
structure CreateTransactionInput where
  document_id : Nat
  transaction_date : Int
  amount : Int
  description : String
  account_number : Option String
  vendor_name : Option String
  transaction_type : Option TransactionType
deriving DecidableEq

/-- `createTransaction` (create_transaction.ts): validates that the
referenced document exists (throwing with the state untouched when it does
not), then inserts the row and returns it. -/
def createTransaction (db : DB) (input : CreateTransactionInput) :
    Except String TransactionRow × DB :=
  match findDocument db input.document_id with
  | none =>
      (Except.error ("Document with ID " ++ toString input.document_id ++ " not found"), db)
  | some _ =>
      let row : TransactionRow :=
        { id := db.nextTxId
          document_id := input.document_id
          transaction_date := input.transaction_date
          amount := input.amount
          description := input.description
          account_number := input.account_number
          vendor_name := input.vendor_name
          transaction_type := input.transaction_type
          created_at := db.now }
      (Except.ok row, { db with transactions := db.transactions ++ [row],
                                nextTxId := db.nextTxId + 1 })

/-- Modelled from the spec: the handler file
src/server/src/handlers/delete_transaction.ts is not part of the given
sources (only its tests and the tRPC router refer to it).  Per the spec,
"deleting a transaction removes exactly one row"; per its tests it returns
a success flag and rejects a missing id with
"Transaction with id <id> not found" (with the state untouched). -/
def deleteTransaction (db : DB) (id : Nat) : Except String Bool × DB :=
  match findTransaction db id with
  | none =>
      (Except.error ("Transaction with id " ++ toString id ++ " not found"), db)
  | some _ =>
      (Except.ok true,
        { db with transactions := db.transactions.filter (fun t => !(t.id == id)) })

/-- `DELETE FROM documents WHERE id = docId` together with the
`onDelete: cascade` clause of the transactions foreign key
(db/schema.ts): the referencing transactions are deleted too.  There is no
application handler for document deletion; this is the database-level
operation. -/
def deleteDocumentCascade (db : DB) (docId : Nat) : DB :=
  { db with documents := db.documents.filter (fun d => !(d.id == docId)),
            transactions := db.transactions.filter (fun t => !(t.document_id == docId)) }

/-- `getTransactions` (get_transactions part of
get_document_transactions.ts): all transactions ordered by
transaction_date descending. -/
def getTransactions (db : DB) : List TransactionRow :=
  db.transactions.insertionSort (fun a b => b.transaction_date ≤ a.transaction_date)

/-- `getDocuments` (get_documents handler): all documents ordered by
upload_date descending. -/
def getDocuments (db : DB) : List DocumentRow :=
  db.documents.insertionSort (fun a b => b.upload_date ≤ a.upload_date)

/-- `getDocumentTransactions` (get_document_transactions.ts): validates the
document, then returns its transactions ordered by transaction_date
ascending. -/
def getDocumentTransactions (db : DB) (documentId : Nat) :
    Except String (List TransactionRow) :=
  match findDocument db documentId with
  | none => Except.error ("Document with ID " ++ toString documentId ++ " not found")
  | some _ =>
      Except.ok
        ((db.transactions.filter (fun t => t.document_id == documentId)).insertionSort
          (fun a b => a.transaction_date ≤ b.transaction_date))

/-- `sort_by` values of the search input. -/
inductive SortBy
| transaction_date
| amount
| description
| vendor_name
deriving DecidableEq

/-- `sort_order` values of the search input. -/
inductive SortOrder
| asc
| desc
deriving DecidableEq

/-- Input of `searchTransactions` (zod `searchTransactionsInputSchema`):
all filters optional, `sort_by`, `sort_order`, `page` and `limit` have zod
defaults and constraints (`page` and `limit` positive, `limit` at most
100). -/
structure SearchTransactionsInput where
  search_term : Option String
  date_from : Option Int
  date_to : Option Int
  min_amount : Option Int
  max_amount : Option Int
  account_number : Option String
  vendor_name : Option String
  transaction_type : Option TransactionType
  sort_by : SortBy
  sort_order : SortOrder
  page : Nat
  limit : Nat
deriving DecidableEq

/-- The WHERE clause built by `searchTransactions`, as a row predicate.
The `search_term`, `account_number` and `vendor_name` conditions are added
under a JS truthiness test (`if (input.search_term)` and so on), so a
supplied empty string adds no condition; `min_amount` and `max_amount` are
tested against `undefined` and so apply even at zero; `date_from` and
`date_to` are `Date` objects, which are always truthy. -/
def txMatches (input : SearchTransactionsInput) (t : TransactionRow) : Bool :=
  (match input.search_term with
   | some term =>
       if term == "" then true
       else
         (ilikeContains term t.description ||
           (match t.vendor_name with
            | some v => ilikeContains term v
            | none => false))
   | none => true) &&
  (match input.date_from with
   | some d => decide (d ≤ t.transaction_date)
   | none => true) &&
  (match input.date_to with
   | some d => decide (t.transaction_date ≤ d)
   | none => true) &&
  (match input.min_amount with
   | some a => decide (a ≤ t.amount)
   | none => true) &&
  (match input.max_amount with
   | some a => decide (t.amount ≤ a)
   | none => true) &&
  (match input.account_number with
   | some an => if an == "" then true else t.account_number == some an
   | none => true) &&
  (match input.vendor_name with
   | some vn => if vn == "" then true else t.vendor_name == some vn
   | none => true) &&
  (match input.transaction_type with
   | some tt => t.transaction_type == some tt
   | none => true)

/-- Ascending comparison for the ORDER BY column.  PostgreSQL sorts NULLs
last in ascending order, so a null vendor name compares as largest. -/
def ascLE (sb : SortBy) (a b : TransactionRow) : Bool :=
  match sb with
  | SortBy.transaction_date => decide (a.transaction_date ≤ b.transaction_date)
  | SortBy.amount => decide (a.amount ≤ b.amount)
  | SortBy.description => decide (a.description ≤ b.description)
  | SortBy.vendor_name =>
      match a.vendor_name, b.vendor_name with
      | none, none => true
      | none, some _ => false
      | some _, none => true
      | some x, some y => decide (x ≤ y)

/-- The ORDER BY applied by `searchTransactions`: one of the four columns,
ascending or descending (descending sorts NULLs first, the PostgreSQL
default, which is the flip of the ascending order). -/
def sortTransactions (input : SearchTransactionsInput) (l : List TransactionRow) :
    List TransactionRow :=
  match input.sort_order with
  | SortOrder.asc => l.insertionSort (fun a b => ascLE input.sort_by a b = true)
  | SortOrder.desc => l.insertionSort (fun a b => ascLE input.sort_by b a = true)

/-- Result shape of `searchTransactions` (zod `paginatedTransactionsSchema`). -/
structure PaginatedTransactions where
  transactions : List TransactionRow
  total_count : Nat
  page : Nat
  limit : Nat
  total_pages : Nat
deriving DecidableEq

/-- `searchTransactions` (search_transactions.ts): filter, sort, then
offset `(page - 1) * limit` and limit; the count query reruns the same
conditions without pagination; `total_pages` is
`Math.ceil(totalCount / limit)`, over naturals `(totalCount + limit - 1) / limit`. -/
def searchTransactions (db : DB) (input : SearchTransactionsInput) :
    PaginatedTransactions :=
  let offset := (input.page - 1) * input.limit
  let matching := db.transactions.filter (txMatches input)
  let results := ((sortTransactions input matching).drop offset).take input.limit
  let totalCount := matching.length
  { transactions := results
    total_count := totalCount
    page := input.page
    limit := input.limit
    total_pages := (totalCount + input.limit - 1) / input.limit }

/-- Input of `updateTransaction` (zod `updateTransactionInputSchema`):
every field except `id` optional, the nullable ones optional-and-nullable
(outer `Option` is presence, inner `Option` is null). -/
structure UpdateTransactionInput where
  id : Nat
  transaction_date : Option Int
  amount : Option Int
  description : Option String
  account_number : Option (Option String)
  vendor_name : Option (Option String)
  transaction_type : Option (Option TransactionType)
deriving DecidableEq

/-- JS `x || dflt` for an optional number: zero is falsy. -/
def jsOrNum (o : Option Int) (dflt : Int) : Int :=
  match o with
  | some a => if a == 0 then dflt else a
  | none => dflt

/-- JS `x || dflt` for an optional string: the empty string is falsy. -/
def jsOrStr (o : Option String) (dflt : String) : String :=
  match o with
  | some s => if s == "" then dflt else s
  | none => dflt

/-- JS `x || null` for an optional nullable string. -/
def jsOrNullStr (o : Option (Option String)) : Option String :=
  match o with
  | some (some s) => if s == "" then none else some s
  | _ => none

/-- JS `x || null` for an optional nullable enum value (enum strings are
non-empty, hence truthy). -/
def jsOrNullType (o : Option (Option TransactionType)) : Option TransactionType :=
  match o with
  | some (some t) => some t
  | _ => none

/-- `updateTransaction` (update_transaction.ts).  The handler body is an
explicit placeholder: it performs no database access at all and resolves
with a fabricated record (`document_id` hardcoded to 1, `created_at` and a
missing date defaulting to `new Date()`, i.e. the clock). -/
def updateTransaction (db : DB) (input : UpdateTransactionInput) :
    Except String TransactionRow × DB :=
  (Except.ok
    { id := input.id
      document_id := 1
      transaction_date := (input.transaction_date).getD db.now
      amount := jsOrNum input.amount 0
      description := jsOrStr input.description "Placeholder description"
      account_number := jsOrNullStr input.account_number
      vendor_name := jsOrNullStr input.vendor_name
      transaction_type := jsOrNullType input.transaction_type
      created_at := db.now },
   db)

/-- Case-insensitive substring containment: does `s` contain `term`
(ignoring case)?  Used only to state the claim wording about
`searchTransactions`, for comparison with the code predicate. -/
def ciContainsSub (s term : String) : Bool :=
  containsSubL (term.data.map Char.toLower) (s.data.map Char.toLower)

/-- Stated from the claim wording, not from the code: "every returned
transaction satisfies every supplied optional predicate (substring match
of search_term against description or non-null vendor_name, ... and exact
equality for account_number, vendor_name, and transaction_type)".  To be
compared with the code predicate `txMatches`. -/
def txMatchesSpec (input : SearchTransactionsInput) (t : TransactionRow) : Bool :=
  (match input.search_term with
   | some term =>
       ciContainsSub t.description term ||
         (match t.vendor_name with
          | some v => ciContainsSub v term
          | none => false)
   | none => true) &&
  (match input.date_from with
   | some d => decide (d ≤ t.transaction_date)
   | none => true) &&
  (match input.date_to with
   | some d => decide (t.transaction_date ≤ d)
   | none => true) &&
  (match input.min_amount with
   | some a => decide (a ≤ t.amount)
   | none => true) &&
  (match input.max_amount with
   | some a => decide (t.amount ≤ a)
   | none => true) &&
  (match input.account_number with
   | some an => t.account_number == some an
   | none => true) &&
  (match input.vendor_name with
   | some vn => t.vendor_name == some vn
   | none => true) &&
  (match input.transaction_type with
   | some tt => t.transaction_type == some tt
   | none => true)

/-- The single invariant of the data model: every transaction references
an existing document. -/
def RefIntegrity (db : DB) : Prop :=
  ∀ t ∈ db.transactions, ∃ d ∈ db.documents, d.id = t.document_id

/-- Example document whose filename triggers neither extraction branch. -/
def exDoc1 : DocumentRow :=
  { id := 1
    filename := "statement.pdf"
    original_name := "bank.pdf"
    file_size := 2048
    mime_type := "application/pdf"
    upload_date := 10
    processing_status := ProcessingStatus.pending
    error_message := none }

/-- Example document whose filename contains both "empty" and "error". -/
def exDoc2 : DocumentRow :=
  { id := 2
    filename := "empty_error.pdf"
    original_name := "both.pdf"
    file_size := 4096
    mime_type := "application/pdf"
    upload_date := 20
    processing_status := ProcessingStatus.failed
    error_message := some "old failure" }

/-- Example transaction of document 1. -/
def exTx1 : TransactionRow :=
  { id := 1
    document_id := 1
    transaction_date := 100
    amount := 500
    description := "abc"
    account_number := some "X"
    vendor_name := none
    transaction_type := some TransactionType.debit
    created_at := 5 }

/-- Example transaction of document 2. -/
def exTx2 : TransactionRow :=
  { id := 2
    document_id := 2
    transaction_date := 200
    amount := -300
    description := "Old Desc"
    account_number := none
    vendor_name := some "Shop"
    transaction_type := none
    created_at := 6 }

/-- Example database used by the concrete instantiations. -/
def exDb : DB :=
  { documents := [exDoc1, exDoc2]
    transactions := [exTx1, exTx2]
    nextDocId := 3
    nextTxId := 3
    now := 42 }

/-- Search input with a `_` wildcard search term and a supplied empty
account-number filter. -/
def exSearchInput : SearchTransactionsInput :=
  { search_term := some "_"
    date_from := none
    date_to := none
    min_amount := none
    max_amount := none
    account_number := some ""
    vendor_name := none
    transaction_type := none
    sort_by := SortBy.transaction_date
    sort_order := SortOrder.desc
    page := 1
    limit := 20 }

/-- Update input touching only the description of transaction 2. -/
def exUpdInput : UpdateTransactionInput :=
  { id := 2
    transaction_date := none
    amount := none
    description := some "new"
    account_number := none
    vendor_name := none
    transaction_type := none }

/-- Update input naming a transaction id that does not exist. -/
def exUpdInputMissing : UpdateTransactionInput :=
  { id := 99
    transaction_date := none
    amount := none
    description := none
    account_number := none
    vendor_name := none
    transaction_type := none }

/-- Upload input (zod-valid: positive size, pdf mime type). -/
def exUploadInput : UploadDocumentInput :=
  { filename := "orig.pdf"
    original_name := "orig.pdf"
    file_size := 2048
    mime_type := "application/pdf" }

/-- Document status update input: mark document 1 completed. -/
def exStatusInput : UpdateDocumentStatusInput :=
  { id := 1
    processing_status := ProcessingStatus.completed
    error_message := none }

theorem setDocStatus_transactions (db : DB) (i : Nat) (st : ProcessingStatus)
    (err : Option String) : (setDocStatus db i st err).transactions = db.transactions := rfl

theorem setDocStatus_nextTxId (db : DB) (i : Nat) (st : ProcessingStatus)
    (err : Option String) : (setDocStatus db i st err).nextTxId = db.nextTxId := rfl

theorem setDocStatus_now (db : DB) (i : Nat) (st : ProcessingStatus)
    (err : Option String) : (setDocStatus db i st err).now = db.now := rfl

theorem find?_map_idPreserving (l : List DocumentRow) (i : Nat)
    (f : DocumentRow → DocumentRow) (hf : ∀ d, (f d).id = d.id) :
    (l.map (fun d => if d.id == i then f d else d)).find? (fun d => d.id == i)
      = (l.find? (fun d => d.id == i)).map f := by
  rw [List.find?_map]
  have hpg : ((fun d => d.id == i) ∘ fun d => if d.id == i then f d else d)
      = (fun d => d.id == i) := by
    funext d
    by_cases h : d.id = i
    · simp [Function.comp, h, hf d]
    · simp [Function.comp, h]
  rw [hpg]
  cases hfind : l.find? (fun d => d.id == i) with
  | none => rfl
  | some d0 =>
      have hp := List.find?_some hfind
      show some (if d0.id == i then f d0 else d0) = some (f d0)
      rw [if_pos hp]

theorem findDocument_updateDocWhere (db : DB) (i : Nat)
    (f : DocumentRow → DocumentRow) (hf : ∀ d, (f d).id = d.id) :
    findDocument (updateDocWhere db i f) i = (findDocument db i).map f :=
  find?_map_idPreserving db.documents i f hf

theorem findDocument_setDocStatus (db : DB) (i : Nat) (st : ProcessingStatus)
    (err : Option String) :
    findDocument (setDocStatus db i st err) i
      = (findDocument db i).map
          (fun d => { d with processing_status := st, error_message := err }) :=
  findDocument_updateDocWhere db i _ (fun _ => rfl)

theorem insertTransactions_spec (document_id : Nat) :
    ∀ (ts : List ExtractedTransactionData) (db : DB),
      (insertTransactions db document_id ts).2.transactions
          = db.transactions ++ (insertTransactions db document_id ts).1
        ∧ (insertTransactions db document_id ts).2.documents = db.documents
        ∧ ∀ r ∈ (insertTransactions db document_id ts).1, r.document_id = document_id := by
  intro ts
  induction ts with
  | nil => intro db; simp [insertTransactions]
  | cons t ts ih =>
      intro db
      obtain ⟨h1, h2, h3⟩ := ih (insertTransactionRow db document_id t).2
      refine ⟨?_, ?_, ?_⟩
      · simp only [insertTransactions]
        rw [h1]
        simp [insertTransactionRow]
      · simp only [insertTransactions]
        rw [h2]
        rfl
      · intro r hr
        simp only [insertTransactions, List.mem_cons] at hr
        rcases hr with hr | hr
        · subst hr; rfl
        · exact h3 r hr

theorem mem_sortTransactions (input : SearchTransactionsInput)
    (l : List TransactionRow) (t : TransactionRow) :
    t ∈ sortTransactions input l ↔ t ∈ l := by
  unfold sortTransactions
  cases input.sort_order
  · exact (List.perm_insertionSort _ l).mem_iff
  · exact (List.perm_insertionSort _ l).mem_iff

/-- C1: for every existing document, the extraction step of
`processDocument` is keyed off filename substrings: a filename containing
"empty" yields the empty transaction list, otherwise one containing
"error" throws, and otherwise exactly the two hardcoded mock transactions
(amount -150.75, i.e. -15075 cents, description "ATM Withdrawal", type
debit; and amount 2500.00, i.e. 250000 cents, description
"Direct Deposit Salary", type credit) are inserted, each with the given
document id. -/
theorem processDocument_extraction_by_filename (db : DB) (id : Nat) (doc : DocumentRow)
    (h : findDocument db id = some doc) :
    (strContainsSub doc.filename "empty" = true →
        (processDocument db id).result = Except.ok []
      ∧ (processDocument db id).db.transactions = db.transactions)
  ∧ (strContainsSub doc.filename "empty" = false →
     strContainsSub doc.filename "error" = true →
        (processDocument db id).result = Except.error "PDF parsing failed - corrupted file")
  ∧ (strContainsSub doc.filename "empty" = false →
     strContainsSub doc.filename "error" = false →
        (processDocument db id).result
            = Except.ok
                [{ id := db.nextTxId, document_id := id,
                   transaction_date := date_2024_01_15, amount := -15075,
                   description := "ATM Withdrawal", account_number := some "****1234",
                   vendor_name := some "Chase ATM",
                   transaction_type := some TransactionType.debit, created_at := db.now },
                 { id := db.nextTxId + 1, document_id := id,
                   transaction_date := date_2024_01_16, amount := 250000,
                   description := "Direct Deposit Salary", account_number := some "****1234",
                   vendor_name := some "ACME Corp",
                   transaction_type := some TransactionType.credit, created_at := db.now }]
      ∧ (processDocument db id).db.transactions
            = db.transactions
                ++ [{ id := db.nextTxId, document_id := id,
                      transaction_date := date_2024_01_15, amount := -15075,
                      description := "ATM Withdrawal", account_number := some "****1234",
                      vendor_name := some "Chase ATM",
                      transaction_type := some TransactionType.debit, created_at := db.now },
                    { id := db.nextTxId + 1, document_id := id,
                      transaction_date := date_2024_01_16, amount := 250000,
                      description := "Direct Deposit Salary", account_number := some "****1234",
                      vendor_name := some "ACME Corp",
                      transaction_type := some TransactionType.credit, created_at := db.now }]) := by
  refine ⟨?_, ?_, ?_⟩
  · intro hempty
    constructor
    · simp [processDocument, h, extractTransactionsFromDocument, hempty, insertTransactions]
    · simp [processDocument, h, extractTransactionsFromDocument, hempty, insertTransactions,
        setDocStatus_transactions]
  · intro hempty herror
    simp [processDocument, h, extractTransactionsFromDocument, hempty, herror]
  · intro hempty herror
    constructor
    · simp [processDocument, h, extractTransactionsFromDocument, hempty, herror,
        mockTransactions, insertTransactions, insertTransactionRow, setDocStatus,
        updateDocWhere]
    · simp [processDocument, h, extractTransactionsFromDocument, hempty, herror,
        mockTransactions, insertTransactions, insertTransactionRow, setDocStatus,
        updateDocWhere]

theorem processDocument_extraction_by_filename_witness :
    (processDocument exDb 1).result
      = Except.ok
          [{ id := 3, document_id := 1, transaction_date := date_2024_01_15,
             amount := -15075, description := "ATM Withdrawal",
             account_number := some "****1234", vendor_name := some "Chase ATM",
             transaction_type := some TransactionType.debit, created_at := 42 },
           { id := 4, document_id := 1, transaction_date := date_2024_01_16,
             amount := 250000, description := "Direct Deposit Salary",
             account_number := some "****1234", vendor_name := some "ACME Corp",
             transaction_type := some TransactionType.credit, created_at := 42 }] :=
  ((processDocument_extraction_by_filename exDb 1 exDoc1 rfl).2.2
    (by decide) (by decide)).1

theorem findDocument_eq_of_documents (a b : DB) (i : Nat)
    (h : a.documents = b.documents) : findDocument a i = findDocument b i := by
  unfold findDocument
  rw [h]

/-- C2: for every existing document, `processDocument` drives the status
progression: the first write to the row is processing (clearing the error
message), a normal return leaves the row completed with a null error
message (that being the last write), a throwing run leaves it failed, and
no status outside processing/completed/failed is ever written by this
operation. -/
theorem processDocument_status_progression (db : DB) (id : Nat) (doc : DocumentRow)
    (h : findDocument db id = some doc) :
    (processDocument db id).writes.head? = some (ProcessingStatus.processing, none)
  ∧ (∀ w ∈ (processDocument db id).writes,
      w.1 = ProcessingStatus.processing ∨ w.1 = ProcessingStatus.completed
        ∨ w.1 = ProcessingStatus.failed)
  ∧ (∀ l, (processDocument db id).result = Except.ok l →
      ∃ d2, findDocument (processDocument db id).db id = some d2
        ∧ d2.processing_status = ProcessingStatus.completed
        ∧ d2.error_message = none
        ∧ (processDocument db id).writes.getLast?
            = some (ProcessingStatus.completed, none))
  ∧ (∀ m, (processDocument db id).result = Except.error m →
      ∃ d2, findDocument (processDocument db id).db id = some d2
        ∧ d2.processing_status = ProcessingStatus.failed
        ∧ (processDocument db id).writes.getLast?
            = some (ProcessingStatus.failed, some m)) := by
  rcases hex : extractTransactionsFromDocument doc with m | ex
  · refine ⟨?_, ?_, ?_, ?_⟩
    · simp [processDocument, h, hex]
    · intro w hw
      simp [processDocument, h, hex] at hw
      rcases hw with hw | hw <;> simp [hw]
    · intro l hl
      simp [processDocument, h, hex] at hl
    · intro m2 hm
      have hres : (processDocument db id).result = Except.error m := by
        simp [processDocument, h, hex]
      rw [hres] at hm
      injection hm with hm2
      subst hm2
      have hdb : (processDocument db id).db
          = setDocStatus (setDocStatus db id ProcessingStatus.processing none) id
              ProcessingStatus.failed (some m) := by
        simp [processDocument, h, hex]
      have hwr : (processDocument db id).writes
          = [(ProcessingStatus.processing, none), (ProcessingStatus.failed, some m)] := by
        simp [processDocument, h, hex]
      rw [hdb, hwr, findDocument_setDocStatus, findDocument_setDocStatus, h]
      exact ⟨_, rfl, rfl, rfl⟩
  · refine ⟨?_, ?_, ?_, ?_⟩
    · simp [processDocument, h, hex]
    · intro w hw
      simp [processDocument, h, hex] at hw
      rcases hw with hw | hw <;> simp [hw]
    · intro l hl
      have hdb : (processDocument db id).db
          = setDocStatus
              (insertTransactions (setDocStatus db id ProcessingStatus.processing none)
                id ex).2 id ProcessingStatus.completed none := by
        simp [processDocument, h, hex]
      have hwr : (processDocument db id).writes
          = [(ProcessingStatus.processing, none), (ProcessingStatus.completed, none)] := by
        simp [processDocument, h, hex]
      have hdocs :=
        (insertTransactions_spec id ex (setDocStatus db id ProcessingStatus.processing none)).2.1
      rw [hdb, hwr, findDocument_setDocStatus,
        findDocument_eq_of_documents _ _ id hdocs, findDocument_setDocStatus, h]
      exact ⟨_, rfl, rfl, rfl, rfl⟩
    · intro m hm
      simp [processDocument, h, hex] at hm

theorem processDocument_status_progression_witness :
    (processDocument exDb 1).writes.head? = some (ProcessingStatus.processing, none) :=
  (processDocument_status_progression exDb 1 exDoc1 rfl).1

/-- C3 counterexample: the claim says `processDocument` raises exactly when
the document is missing or its filename contains "error"; but "empty" is
checked first, so a document whose filename contains both substrings (such
as empty_error.pdf, document 2 of the example database) returns the empty
list instead of raising. -/
theorem processDocument_error_iff_refuted :
    ¬ (∀ (db : DB) (id : Nat),
        (∃ m, (processDocument db id).result = Except.error m) ↔
          (findDocument db id = none ∨
            ∃ doc, findDocument db id = some doc
              ∧ strContainsSub doc.filename "error" = true)) := by
  intro hclaim
  obtain ⟨m, hm⟩ := (hclaim exDb 2).mpr (Or.inr ⟨exDoc2, rfl, by decide⟩)
  have hok : (processDocument exDb 2).result = Except.ok [] := rfl
  rw [hok] at hm
  exact Except.noConfusion hm

/-- C3 amended: `processDocument` raises exactly when the document is
missing or its filename contains "error" but not "empty" (the "empty"
branch takes precedence); in every raising run on an existing document the
error is rethrown after the stored error message is set to the thrown
message with status failed; every non-raising run returns exactly the
transactions appended to the table. -/
theorem processDocument_error_iff_empty_precedence (db : DB) (id : Nat) :
    ((∃ m, (processDocument db id).result = Except.error m) ↔
      (findDocument db id = none ∨
        ∃ doc, findDocument db id = some doc
          ∧ strContainsSub doc.filename "error" = true
          ∧ strContainsSub doc.filename "empty" = false))
  ∧ (∀ m doc, (processDocument db id).result = Except.error m →
      findDocument db id = some doc →
        ∃ d2, findDocument (processDocument db id).db id = some d2
          ∧ d2.processing_status = ProcessingStatus.failed
          ∧ d2.error_message = some m)
  ∧ (∀ l, (processDocument db id).result = Except.ok l →
      (processDocument db id).db.transactions = db.transactions ++ l) := by
  cases hfind : findDocument db id with
  | none =>
      refine ⟨?_, ?_, ?_⟩
      · constructor
        · intro _; exact Or.inl rfl
        · intro _
          exact ⟨"Document with ID " ++ toString id ++ " not found",
            by simp [processDocument, hfind]⟩
      · intro m doc hm hdoc
        exact Option.noConfusion hdoc
      · intro l hl
        simp [processDocument, hfind] at hl
  | some doc =>
      cases hempty : strContainsSub doc.filename "empty" with
      | true =>
          have hres : (processDocument db id).result = Except.ok [] := by
            simp [processDocument, hfind, extractTransactionsFromDocument, hempty,
              insertTransactions]
          refine ⟨?_, ?_, ?_⟩
          · constructor
            · rintro ⟨m, hm⟩
              rw [hres] at hm
              exact Except.noConfusion hm
            · rintro (hnone | ⟨doc2, hdoc2, _, hemp2⟩)
              · exact Option.noConfusion hnone
              · injection hdoc2 with he
                subst he
                rw [hempty] at hemp2
                exact Bool.noConfusion hemp2
          · intro m doc2 hm _
            rw [hres] at hm
            exact Except.noConfusion hm
          · intro l hl
            rw [hres] at hl
            injection hl with he
            subst he
            have hdb : (processDocument db id).db.transactions = db.transactions := by
              simp [processDocument, hfind, extractTransactionsFromDocument, hempty,
                insertTransactions, setDocStatus_transactions]
            rw [hdb]
            simp
      | false =>
          cases herror : strContainsSub doc.filename "error" with
          | true =>
              have hres : (processDocument db id).result
                  = Except.error "PDF parsing failed - corrupted file" := by
                simp [processDocument, hfind, extractTransactionsFromDocument, hempty, herror]
              refine ⟨?_, ?_, ?_⟩
              · constructor
                · intro _; exact Or.inr ⟨doc, rfl, herror, hempty⟩
                · intro _; exact ⟨_, hres⟩
              · intro m doc2 hm hdoc2
                rw [hres] at hm
                injection hm with he
                subst he
                have hdb : (processDocument db id).db
                    = setDocStatus (setDocStatus db id ProcessingStatus.processing none) id
                        ProcessingStatus.failed
                        (some "PDF parsing failed - corrupted file") := by
                  simp [processDocument, hfind, extractTransactionsFromDocument, hempty, herror]
                rw [hdb, findDocument_setDocStatus, findDocument_setDocStatus, hfind]
                exact ⟨_, rfl, rfl, rfl⟩
              · intro l hl
                rw [hres] at hl
                exact Except.noConfusion hl
          | false =>
              have hres : (processDocument db id).result
                  = Except.ok
                      (insertTransactions
                        (setDocStatus db id ProcessingStatus.processing none) id
                        mockTransactions).1 := by
                simp [processDocument, hfind, extractTransactionsFromDocument, hempty, herror]
              refine ⟨?_, ?_, ?_⟩
              · constructor
                · rintro ⟨m, hm⟩
                  rw [hres] at hm
                  exact Except.noConfusion hm
                · rintro (hnone | ⟨doc2, hdoc2, herr2, _⟩)
                  · exact Option.noConfusion hnone
                  · injection hdoc2 with he
                    subst he
                    rw [herror] at herr2
                    exact Bool.noConfusion herr2
              · intro m doc2 hm _
                rw [hres] at hm
                exact Except.noConfusion hm
              · intro l hl
                rw [hres] at hl
                injection hl with he
                subst he
                have hdb : (processDocument db id).db.transactions
                    = (insertTransactions
                        (setDocStatus db id ProcessingStatus.processing none) id
                        mockTransactions).2.transactions := by
                  simp [processDocument, hfind, extractTransactionsFromDocument, hempty,
                    herror, setDocStatus_transactions]
                rw [hdb, (insertTransactions_spec id mockTransactions _).1]
                rfl

theorem processDocument_error_iff_empty_precedence_witness :
    ∃ m, (processDocument exDb 3).result = Except.error m :=
  ((processDocument_error_iff_empty_precedence exDb 3).1).mpr (Or.inl rfl)

/-- C4 counterexample: the claim reads the search-term condition as a
substring match and the equality filters as unconditional; but the code
interpolates the term into an ILIKE pattern (so `_` is a wildcard) and
skips filters supplied as the empty string.  With search term `_` and an
empty account-number filter, the example database returns a transaction
whose description contains no underscore and whose account number is not
the empty string. -/
theorem searchTransactions_substring_reading_refuted :
    ¬ (∀ (db : DB) (input : SearchTransactionsInput),
        ∀ t ∈ (searchTransactions db input).transactions,
          txMatchesSpec input t = true) := by
  intro hclaim
  have hmem : exTx1 ∈ (searchTransactions exDb exSearchInput).transactions := by
    have hlist : (searchTransactions exDb exSearchInput).transactions
        = [exTx2, exTx1] := by decide
    rw [hlist]
    simp
  have hfalse : txMatchesSpec exSearchInput exTx1 = false := by decide
  have htrue := hclaim exDb exSearchInput exTx1 hmem
  rw [hfalse] at htrue
  exact Bool.noConfusion htrue

/-- C4 amended: for every search input (with the zod-guaranteed positive
page and limit), `searchTransactions` returns at most `limit` rows,
namely the page obtained by skipping `(page - 1) * limit` rows of the
sorted matching list; every returned row satisfies the built WHERE
predicate `txMatches` (ILIKE pattern match of the search term — in which
`%` and `_` act as wildcards — against description or non-null vendor
name, date and amount ranges, and the equality filters, the string ones
applying only when supplied non-empty); `total_count` is the number of
matching rows ignoring pagination; and `total_pages` is the ceiling of
`total_count / limit`. -/
theorem searchTransactions_paginated_filtered (db : DB) (input : SearchTransactionsInput)
    (hp : 1 ≤ input.page) (hl : 1 ≤ input.limit) :
    (searchTransactions db input).transactions
        = ((sortTransactions input (db.transactions.filter (txMatches input))).drop
            ((input.page - 1) * input.limit)).take input.limit
  ∧ (searchTransactions db input).transactions.length ≤ input.limit
  ∧ (∀ t ∈ (searchTransactions db input).transactions, txMatches input t = true)
  ∧ (searchTransactions db input).total_count
      = (db.transactions.filter (txMatches input)).length
  ∧ (searchTransactions db input).total_pages
      = (searchTransactions db input).total_count ⌈/⌉ input.limit := by
  have hts : (searchTransactions db input).transactions
      = ((sortTransactions input (db.transactions.filter (txMatches input))).drop
          ((input.page - 1) * input.limit)).take input.limit := rfl
  refine ⟨rfl, ?_, ?_, rfl, ?_⟩
  · rw [hts, List.length_take]
    exact Nat.min_le_left _ _
  · intro t ht
    rw [hts] at ht
    have ht2 : t ∈ sortTransactions input (db.transactions.filter (txMatches input)) :=
      List.mem_of_mem_drop (List.mem_of_mem_take ht)
    have ht3 := (mem_sortTransactions input _ t).mp ht2
    exact List.of_mem_filter ht3
  · exact (Nat.ceilDiv_eq_add_pred_div _ _).symm

theorem searchTransactions_paginated_filtered_witness :
    (searchTransactions exDb exSearchInput).transactions.length ≤ exSearchInput.limit :=
  (searchTransactions_paginated_filtered exDb exSearchInput (by decide) (by decide)).2.1

/-- C5: evaluation of `updateTransaction` at a concrete failing input.
The handler is a placeholder and the claim describes the intended (and
documented-in-code) behaviour, which the implementation contradicts: the
state is returned untouched (transaction 2 keeps its old description),
the fabricated record hardcodes document id 1 and clock-valued
`created_at` instead of the stored values 2 and 6, and a missing
transaction id (99) is not rejected. -/
theorem updateTransaction_is_placeholder :
    (updateTransaction exDb exUpdInput).2 = exDb
  ∧ (updateTransaction exDb exUpdInput).1
      = Except.ok
          { id := 2, document_id := 1, transaction_date := 42, amount := 0,
            description := "new", account_number := none, vendor_name := none,
            transaction_type := none, created_at := 42 }
  ∧ findTransaction exDb 2 = some exTx2
  ∧ exTx2.document_id = 2
  ∧ exTx2.created_at = 6
  ∧ exTx2.description = "Old Desc"
  ∧ findTransaction ((updateTransaction exDb exUpdInput).2) 2 = some exTx2
  ∧ (updateTransaction exDb exUpdInputMissing).1
      = Except.ok
          { id := 99, document_id := 1, transaction_date := 42, amount := 0,
            description := "Placeholder description", account_number := none,
            vendor_name := none, transaction_type := none, created_at := 42 }
  ∧ findTransaction exDb 99 = none :=
  ⟨rfl, rfl, rfl, rfl, rfl, rfl, rfl, rfl, rfl⟩

/-- C6: for every zod-valid upload input, `uploadDocument` inserts exactly
one document row and returns it: pending status, null error message,
original name, size and mime type taken from the input, and a generated
storage filename doc_<timestamp>_<random>.pdf that does not depend on the
input filename (and differs from it unless the input filename happens to
equal the generated one). -/
theorem uploadDocument_pending_insert (db : DB) (input : UploadDocumentInput)
    (ts : Int) (rs : String) (hsize : 0 < input.file_size)
    (hmime : input.mime_type = "application/pdf") :
    (uploadDocument db input ts rs).2.documents
        = db.documents ++ [(uploadDocument db input ts rs).1]
  ∧ (uploadDocument db input ts rs).2.transactions = db.transactions
  ∧ (uploadDocument db input ts rs).1.processing_status = ProcessingStatus.pending
  ∧ (uploadDocument db input ts rs).1.error_message = none
  ∧ (uploadDocument db input ts rs).1.original_name = input.original_name
  ∧ (uploadDocument db input ts rs).1.file_size = input.file_size
  ∧ (uploadDocument db input ts rs).1.mime_type = input.mime_type
  ∧ (uploadDocument db input ts rs).1.filename
      = "doc_" ++ toString ts ++ "_" ++ rs ++ ".pdf"
  ∧ (∀ f, (uploadDocument db { input with filename := f } ts rs).1.filename
        = (uploadDocument db input ts rs).1.filename)
  ∧ (input.filename ≠ "doc_" ++ toString ts ++ "_" ++ rs ++ ".pdf" →
      (uploadDocument db input ts rs).1.filename ≠ input.filename) := by
  refine ⟨rfl, rfl, rfl, rfl, rfl, rfl, rfl, rfl, fun f => rfl, ?_⟩
  intro hne h2
  exact hne h2.symm

theorem uploadDocument_pending_insert_witness :
    (uploadDocument exDb exUploadInput 5 "abc123").1.processing_status
      = ProcessingStatus.pending :=
  (uploadDocument_pending_insert exDb exUploadInput 5 "abc123" (by decide) rfl).2.2.1

theorem mem_ids_updateDocWhere (db : DB) (i : Nat) (f : DocumentRow → DocumentRow)
    (hf : ∀ d, (f d).id = d.id) (j : Nat) :
    (∃ d ∈ (updateDocWhere db i f).documents, d.id = j)
      ↔ (∃ d ∈ db.documents, d.id = j) := by
  constructor
  · rintro ⟨d, hd, hid⟩
    obtain ⟨d0, hd0, rfl⟩ := List.mem_map.mp hd
    refine ⟨d0, hd0, ?_⟩
    cases h : (d0.id == i) with
    | true =>
        rw [if_pos h] at hid
        rw [hf d0] at hid
        exact hid
    | false =>
        rw [if_neg (by simp [h])] at hid
        exact hid
  · rintro ⟨d, hd, hid⟩
    refine ⟨(fun d => if d.id == i then f d else d) d, List.mem_map_of_mem _ hd, ?_⟩
    cases h : (d.id == i) with
    | true => simp only [if_pos h, hf d]; exact hid
    | false => simp only [if_neg (by simp [h] : ¬((d.id == i) = true))]; exact hid

theorem RefIntegrity_updateDocWhere (db : DB) (i : Nat) (f : DocumentRow → DocumentRow)
    (hf : ∀ d, (f d).id = d.id) (h : RefIntegrity db) :
    RefIntegrity (updateDocWhere db i f) := by
  intro t ht
  exact (mem_ids_updateDocWhere db i f hf t.document_id).mpr (h t ht)

theorem updateDocumentStatusRow_id (input : UpdateDocumentStatusInput) (d : DocumentRow) :
    (updateDocumentStatusRow input d).id = d.id := by
  unfold updateDocumentStatusRow
  split
  · cases input.error_message <;> rfl
  · rfl


theorem RefIntegrity_setDocStatus (db : DB) (i : Nat) (st : ProcessingStatus)
    (err : Option String) (h : RefIntegrity db) :
    RefIntegrity (setDocStatus db i st err) :=
  RefIntegrity_updateDocWhere db i _ (fun _ => rfl) h

/-- C7: referential integrity (every transaction references an existing
document) is preserved by every operation; `createTransaction` rejects a
missing document with "Document with ID <id> not found" without touching
the state; and the database-level cascade of a document deletion keeps
the invariant by removing the referencing transactions. -/
theorem handlers_preserve_ref_integrity (db : DB) (hri : RefIntegrity db) :
    (∀ input ts rs, RefIntegrity (uploadDocument db input ts rs).2)
  ∧ (∀ input, RefIntegrity (createTransaction db input).2)
  ∧ (∀ input, findDocument db input.document_id = none →
      createTransaction db input
        = (Except.error ("Document with ID " ++ toString input.document_id
            ++ " not found"), db))
  ∧ (∀ id, RefIntegrity (processDocument db id).db)
  ∧ (∀ input, RefIntegrity (updateDocumentStatus db input).2)
  ∧ (∀ input, RefIntegrity (updateTransaction db input).2)
  ∧ (∀ id, RefIntegrity (deleteTransaction db id).2)
  ∧ (∀ id, RefIntegrity (deleteDocumentCascade db id)) := by
  refine ⟨?_, ?_, ?_, ?_, ?_, ?_, ?_, ?_⟩
  · intro input ts rs t ht
    have htx : (uploadDocument db input ts rs).2.transactions = db.transactions := rfl
    rw [htx] at ht
    obtain ⟨d, hd, hid⟩ := hri t ht
    have hdocs : (uploadDocument db input ts rs).2.documents
        = db.documents ++ [(uploadDocument db input ts rs).1] := rfl
    rw [hdocs]
    exact ⟨d, List.mem_append_left _ hd, hid⟩
  · intro input
    cases hfind : findDocument db input.document_id with
    | none =>
        have h2 : (createTransaction db input).2 = db := by
          simp [createTransaction, hfind]
        rw [h2]
        exact hri
    | some d0 =>
        have h2 : (createTransaction db input).2
            = { db with
                transactions := db.transactions ++
                  [{ id := db.nextTxId, document_id := input.document_id,
                     transaction_date := input.transaction_date, amount := input.amount,
                     description := input.description,
                     account_number := input.account_number,
                     vendor_name := input.vendor_name,
                     transaction_type := input.transaction_type,
                     created_at := db.now }],
                nextTxId := db.nextTxId + 1 } := by
          simp [createTransaction, hfind]
        rw [h2]
        intro t ht
        rcases List.mem_append.mp ht with hold | hnew
        · exact hri t hold
        · have ht2 : t.document_id = input.document_id := by
            rcases List.mem_singleton.mp hnew with rfl
            rfl
          have hfind2 : db.documents.find? (fun d => d.id == input.document_id)
              = some d0 := hfind
          have hbeq := List.find?_some hfind2
          refine ⟨d0, List.mem_of_find?_eq_some hfind2, ?_⟩
          rw [ht2]
          exact eq_of_beq hbeq
  · intro input hfind
    simp [createTransaction, hfind]
  · intro id
    cases hfind : findDocument db id with
    | none =>
        have h2 : (processDocument db id).db
            = setDocStatus db id ProcessingStatus.failed
                (some ("Document with ID " ++ toString id ++ " not found")) := by
          simp [processDocument, hfind]
        rw [h2]
        exact RefIntegrity_setDocStatus db id _ _ hri
    | some doc =>
        have hri1 : RefIntegrity (setDocStatus db id ProcessingStatus.processing none) :=
          RefIntegrity_setDocStatus db id _ _ hri
        have hfind2 : db.documents.find? (fun d => d.id == id) = some doc := hfind
        have hbeq := List.find?_some hfind2
        have hdoc0 : ∃ d ∈ db.documents, d.id = id :=
          ⟨doc, List.mem_of_find?_eq_some hfind2, eq_of_beq hbeq⟩
        cases hex : extractTransactionsFromDocument doc with
        | error m =>
            have h2 : (processDocument db id).db
                = setDocStatus (setDocStatus db id ProcessingStatus.processing none) id
                    ProcessingStatus.failed (some m) := by
              simp [processDocument, hfind, hex]
            rw [h2]
            exact RefIntegrity_setDocStatus _ id _ _ hri1
        | ok ex =>
            have h2 : (processDocument db id).db
                = setDocStatus
                    (insertTransactions (setDocStatus db id ProcessingStatus.processing none)
                      id ex).2 id ProcessingStatus.completed none := by
              simp [processDocument, hfind, hex]
            have hspec :=
              insertTransactions_spec id ex (setDocStatus db id ProcessingStatus.processing none)
            have hri2 : RefIntegrity
                (insertTransactions (setDocStatus db id ProcessingStatus.processing none)
                  id ex).2 := by
              intro t ht
              rw [hspec.1] at ht
              rw [hspec.2.1]
              rcases List.mem_append.mp ht with hold | hnew
              · exact hri1 t hold
              · have hdid := hspec.2.2 t hnew
                obtain ⟨d, hd, hid⟩ :=
                  (mem_ids_updateDocWhere db id
                    (fun d => { d with processing_status := ProcessingStatus.processing,
                                       error_message := none })
                    (fun _ => rfl) id).mpr hdoc0
                exact ⟨d, hd, by rw [hid, hdid]⟩
            rw [h2]
            exact RefIntegrity_setDocStatus _ id _ _ hri2
  · intro input
    cases hfind : findDocument db input.id with
    | none =>
        have h2 : (updateDocumentStatus db input).2 = db := by
          simp [updateDocumentStatus, hfind]
        rw [h2]
        exact hri
    | some d =>
        have h2 : (updateDocumentStatus db input).2
            = updateDocWhere db input.id (updateDocumentStatusRow input) := by
          simp [updateDocumentStatus, hfind]
        rw [h2]
        exact RefIntegrity_updateDocWhere db input.id _
          (fun d2 => updateDocumentStatusRow_id input d2) hri
  · intro input
    exact hri
  · intro id
    cases hfind : findTransaction db id with
    | none =>
        have h2 : (deleteTransaction db id).2 = db := by
          simp [deleteTransaction, hfind]
        rw [h2]
        exact hri
    | some t0 =>
        have h2 : (deleteTransaction db id).2
            = { db with transactions := db.transactions.filter (fun t => !(t.id == id)) } := by
          simp [deleteTransaction, hfind]
        rw [h2]
        intro t ht
        exact hri t (List.mem_of_mem_filter ht)
  · intro i t ht
    have hne : t.document_id ≠ i := by
      have hp := List.of_mem_filter ht
      simpa using hp
    obtain ⟨d, hd, hid⟩ := hri t (List.mem_of_mem_filter ht)
    refine ⟨d, List.mem_filter.mpr ⟨hd, ?_⟩, hid⟩
    simp [hid, hne]

theorem handlers_preserve_ref_integrity_witness :
    RefIntegrity (deleteDocumentCascade exDb 1) :=
  (handlers_preserve_ref_integrity exDb (by unfold RefIntegrity; decide)).2.2.2.2.2.2.2 1

/-- C8: under the primary-key invariant (distinct transaction ids),
`deleteTransaction` on an existing id removes exactly that one row —
the other transaction rows survive in order and the documents table is
untouched — and returns success; on a missing id it throws
"Transaction with id <id> not found" and changes nothing.
(The handler itself is absent from the given sources; the definition is
modelled from the spec and its tests.) -/
theorem deleteTransaction_removes_exactly_one (db : DB) (id : Nat)
    (hnd : (db.transactions.map (fun t => t.id)).Nodup) :
    (∀ t, t ∈ db.transactions → t.id = id →
      ∃ l1 l2, db.transactions = l1 ++ t :: l2
        ∧ deleteTransaction db id
            = (Except.ok true, { db with transactions := l1 ++ l2 }))
  ∧ ((∀ t ∈ db.transactions, t.id ≠ id) →
      deleteTransaction db id
        = (Except.error ("Transaction with id " ++ toString id ++ " not found"), db)) := by
  constructor
  · intro t ht htid
    obtain ⟨l1, l2, hsplit⟩ := List.append_of_mem ht
    refine ⟨l1, l2, hsplit, ?_⟩
    rw [hsplit, List.map_append, List.map_cons] at hnd
    obtain ⟨hn1, hn2, hdisj⟩ := List.nodup_append.mp hnd
    obtain ⟨hnotin, hn3⟩ := List.nodup_cons.mp hn2
    have hl1 : ∀ a ∈ l1, ¬(a.id = id) := by
      intro a ha heq
      have h4 : a.id ∈ l1.map (fun x => x.id) := List.mem_map_of_mem _ ha
      rw [heq, ← htid] at h4
      exact hdisj h4 (List.mem_cons_self _ _)
    have hl2 : ∀ a ∈ l2, ¬(a.id = id) := by
      intro a ha heq
      have h4 : a.id ∈ l2.map (fun x => x.id) := List.mem_map_of_mem _ ha
      rw [heq, ← htid] at h4
      exact hnotin h4
    cases hf : findTransaction db id with
    | none =>
        exfalso
        have hf2 : db.transactions.find? (fun x => x.id == id) = none := hf
        have hnp := List.find?_eq_none.mp hf2 t ht
        simp [htid] at hnp
    | some t0 =>
        have hres : deleteTransaction db id
            = (Except.ok true,
               { db with transactions := db.transactions.filter (fun x => !(x.id == id)) }) := by
          simp [deleteTransaction, hf]
        rw [hres]
        have e1 : List.filter (fun x => !(x.id == id)) l1 = l1 :=
          List.filter_eq_self.mpr (by intro a ha; simp [hl1 a ha])
        have e2 : List.filter (fun x => !(x.id == id)) l2 = l2 :=
          List.filter_eq_self.mpr (by intro a ha; simp [hl2 a ha])
        have hfilter : db.transactions.filter (fun x => !(x.id == id)) = l1 ++ l2 := by
          rw [hsplit, List.filter_append, List.filter_cons]
          simp [htid, e1, e2]
        rw [hfilter]
  · intro hall
    have hf : findTransaction db id = none := by
      apply List.find?_eq_none.mpr
      intro a ha
      simp [hall a ha]
    simp [deleteTransaction, hf]

theorem deleteTransaction_removes_exactly_one_witness :
    deleteTransaction exDb 99
      = (Except.error ("Transaction with id " ++ toString 99 ++ " not found"), exDb) :=
  (deleteTransaction_removes_exactly_one exDb 99 (by decide)).2 (by decide)

/-- C9: `updateDocumentStatus` with a new status other than failed always
clears the stored error message to null; with status failed it overwrites
the error message only when one is provided in the input (a provided null
clears it) and otherwise leaves the stored message unchanged; a missing
document id throws "Document with id <id> not found" and changes
nothing. -/
theorem updateDocumentStatus_error_message_policy (db : DB)
    (input : UpdateDocumentStatusInput) :
    (findDocument db input.id = none →
      updateDocumentStatus db input
        = (Except.error ("Document with id " ++ toString input.id ++ " not found"), db))
  ∧ (∀ doc, findDocument db input.id = some doc →
      (updateDocumentStatus db input).1 = Except.ok (updateDocumentStatusRow input doc)
      ∧ findDocument (updateDocumentStatus db input).2 input.id
          = some (updateDocumentStatusRow input doc)
      ∧ (updateDocumentStatusRow input doc).processing_status = input.processing_status
      ∧ (input.processing_status ≠ ProcessingStatus.failed →
          (updateDocumentStatusRow input doc).error_message = none)
      ∧ (input.processing_status = ProcessingStatus.failed →
          (∀ em, input.error_message = some em →
            (updateDocumentStatusRow input doc).error_message = em)
          ∧ (input.error_message = none →
            (updateDocumentStatusRow input doc).error_message = doc.error_message))) := by
  constructor
  · intro hfind
    simp [updateDocumentStatus, hfind]
  · intro doc hfind
    refine ⟨?_, ?_, ?_, ?_, ?_⟩
    · simp [updateDocumentStatus, hfind]
    · have h2 : (updateDocumentStatus db input).2
          = updateDocWhere db input.id (updateDocumentStatusRow input) := by
        simp [updateDocumentStatus, hfind]
      rw [h2,
        findDocument_updateDocWhere db input.id _ (updateDocumentStatusRow_id input), hfind]
      rfl
    · unfold updateDocumentStatusRow
      split
      · cases input.error_message <;> rfl
      · rfl
    · intro hne
      unfold updateDocumentStatusRow
      rw [if_neg hne]
    · intro heq
      constructor
      · intro em hem
        unfold updateDocumentStatusRow
        rw [if_pos heq, hem]
      · intro hnone
        unfold updateDocumentStatusRow
        rw [if_pos heq, hnone]

theorem updateDocumentStatus_error_message_policy_witness :
    updateDocumentStatus exDb
        { id := 77, processing_status := ProcessingStatus.completed, error_message := none }
      = (Except.error ("Document with id " ++ toString 77 ++ " not found"), exDb) :=
  (updateDocumentStatus_error_message_policy exDb
    { id := 77, processing_status := ProcessingStatus.completed, error_message := none }).1
    rfl

/-- C10: the list operations impose a fixed ordering: `getTransactions`
returns all transactions sorted by transaction date descending,
`getDocuments` returns all documents sorted by upload date descending,
and `getDocumentTransactions` returns exactly the transactions of the
given document sorted by transaction date ascending, throwing
"Document with ID <id> not found" when the document is missing. -/
theorem list_handlers_fixed_ordering (db : DB) (docId : Nat) :
    (getTransactions db).Perm db.transactions
  ∧ (getTransactions db).Pairwise (fun a b => b.transaction_date ≤ a.transaction_date)
  ∧ (getDocuments db).Perm db.documents
  ∧ (getDocuments db).Pairwise (fun a b => b.upload_date ≤ a.upload_date)
  ∧ (findDocument db docId = none →
      getDocumentTransactions db docId
        = Except.error ("Document with ID " ++ toString docId ++ " not found"))
  ∧ (∀ doc, findDocument db docId = some doc →
      ∃ l, getDocumentTransactions db docId = Except.ok l
        ∧ l.Perm (db.transactions.filter (fun t => t.document_id == docId))
        ∧ l.Pairwise (fun a b => a.transaction_date ≤ b.transaction_date)
        ∧ ∀ t ∈ l, t.document_id = docId) := by
  refine ⟨?_, ?_, ?_, ?_, ?_, ?_⟩
  · exact List.perm_insertionSort _ _
  · haveI h1 : IsTotal TransactionRow (fun a b => b.transaction_date ≤ a.transaction_date) :=
      ⟨fun a b => le_total _ _⟩
    haveI h2 : IsTrans TransactionRow (fun a b => b.transaction_date ≤ a.transaction_date) :=
      ⟨fun _ _ _ hab hbc => le_trans hbc hab⟩
    exact List.sorted_insertionSort _ _
  · exact List.perm_insertionSort _ _
  · haveI h1 : IsTotal DocumentRow (fun a b => b.upload_date ≤ a.upload_date) :=
      ⟨fun a b => le_total _ _⟩
    haveI h2 : IsTrans DocumentRow (fun a b => b.upload_date ≤ a.upload_date) :=
      ⟨fun _ _ _ hab hbc => le_trans hbc hab⟩
    exact List.sorted_insertionSort _ _
  · intro hfind
    simp [getDocumentTransactions, hfind]
  · intro doc hfind
    refine ⟨(db.transactions.filter (fun t => t.document_id == docId)).insertionSort
        (fun a b => a.transaction_date ≤ b.transaction_date), ?_, ?_, ?_, ?_⟩
    · simp [getDocumentTransactions, hfind]
    · exact List.perm_insertionSort _ _
    · haveI h1 : IsTotal TransactionRow
          (fun a b => a.transaction_date ≤ b.transaction_date) :=
        ⟨fun a b => le_total _ _⟩
      haveI h2 : IsTrans TransactionRow
          (fun a b => a.transaction_date ≤ b.transaction_date) :=
        ⟨fun _ _ _ hab hbc => le_trans hab hbc⟩
      exact List.sorted_insertionSort _ _
    · intro t ht
      have ht2 := List.Perm.subset (List.perm_insertionSort _ _) ht
      have hb := List.of_mem_filter ht2
      exact eq_of_beq hb

theorem list_handlers_fixed_ordering_witness :
    ∃ l, getDocumentTransactions exDb 1 = Except.ok l
      ∧ l.Perm (exDb.transactions.filter (fun t => t.document_id == 1))
      ∧ l.Pairwise (fun a b => a.transaction_date ≤ b.transaction_date)
      ∧ ∀ t ∈ l, t.document_id = 1 :=
  (list_handlers_fixed_ordering exDb 1).2.2.2.2.2 exDoc1 rfl
